import Mathlib

/-!
# Verification of `validate_data.py` (2026-Sailing)

Shallow embedding of the JSON stop-list validator/fixer.  JSON values are an
inductive type; a record (one stop) is an association list from field names to
JSON values, mirroring a Python `dict` loaded by `json.loads`.  Python builtins
used by the script (`float`, `datetime.fromisoformat`, `str.strip`,
`json.dumps`, `pathlib` name manipulation) are modelled as executable Lean
functions on this representation.
-/

set_option autoImplicit false

/-- A JSON value as produced by `json.loads`.  Numbers are modelled as exact
rationals (Python ints and floats collapse to their numeric value). -/
inductive JVal where
  | str (s : String)
  | num (q : Rat)
  | bool (b : Bool)
  | null
  | arr (xs : List JVal)
  | obj (fs : List (String × JVal))
  deriving Repr

/-- One record (stop): a Python dict, field name to value. -/
abbrev Record := List (String × JVal)

/-- `k in item` on a Python dict. -/
def hasField (r : Record) (k : String) : Bool :=
  r.any (fun p => p.1 == k)

/-- `item[k]` lookup, i.e. `item.get(k)` returning `None` when absent. -/
def getField? (r : Record) (k : String) : Option JVal :=
  (r.find? (fun p => p.1 == k)).map (fun p => p.2)

/-- `item.get(k, d)`. -/
def getFieldD (r : Record) (k : String) (d : JVal) : JVal :=
  (getField? r k).getD d

/-- `item[k] = v`: replace the value of the (first) entry with key `k`, append
when the key is absent.  (Python dict keys are unique, so "first" is exact.) -/
def setField : Record → String → JVal → Record
  | [], k, v => [(k, v)]
  | p :: r, k, v => if p.1 == k then (k, v) :: r else p :: setField r k v

/-- `REQUIRED_FIELDS` from the script. -/
def REQUIRED_FIELDS : List String :=
  ["number", "name", "lat", "lon", "arrival", "departure", "duration",
   "distance", "type", "link", "season"]

/-! ## String helpers (Python builtins) -/

/-- Characters stripped by Python `str.strip()` (the common whitespace set;
exotic Unicode spaces are omitted from the model). -/
def pyIsSpace (c : Char) : Bool :=
  c == ' ' || c == '\t' || c == '\n' || c == '\x0d' || c == '\x0b' ||
  c == '\x0c' || c == '\x1c' || c == '\x1d' || c == '\x1e' || c == '\x1f' ||
  c == '\x85' || c == '\xa0'

/-- `str.strip()` on a character list: drop leading and trailing whitespace. -/
def pyStripL (l : List Char) : List Char :=
  ((l.dropWhile pyIsSpace).reverse.dropWhile pyIsSpace).reverse

/-- `str.strip()`. -/
def pyStrip (s : String) : String :=
  ⟨pyStripL s.data⟩

/-- `remove_emojis` from the script: the regex `[\U00010000-\U0010ffff]` is
substituted by the empty string, i.e. characters of the supplementary planes
(code point at least `0x10000`) are removed.  The `except` fallback is dead
code (the regex always compiles), so the model is the main path. -/
def remove_emojis (text : String) : String :=
  ⟨text.data.filter (fun c => c.val < 0x10000)⟩

/-- Python `pat in s` substring test. -/
def containsSub (s pat : String) : Bool :=
  s.data.tails.any (fun t => pat.data.isPrefixOf t)

/-! ## `float()` coercion -/

/-- Value of a digit character. -/
def digitVal (c : Char) : Nat := c.toNat - '0'.toNat

/-- Digits to a natural number, most significant first. -/
def digitsToNat (l : List Char) : Nat :=
  l.foldl (fun acc c => acc * 10 + digitVal c) 0

/-- Parse the body of a Python float literal (after sign removal):
`digits [. digits] [(e|E) [sign] digits]` with at least one digit in the
mantissa.  Underscore separators, `inf` and `nan` are outside the model. -/
def parseFloatBody (l : List Char) : Option Rat :=
  let intPart := l.takeWhile Char.isDigit
  let rest := l.dropWhile Char.isDigit
  let (fracPart, rest2) :=
    match rest with
    | '.' :: r => (r.takeWhile Char.isDigit, r.dropWhile Char.isDigit)
    | _ => ([], rest)
  if intPart.isEmpty ∧ fracPart.isEmpty then none
  else
    let mant : Rat := (digitsToNat intPart : Rat) +
      (digitsToNat fracPart : Rat) / ((10 : Rat) ^ fracPart.length)
    match rest2 with
    | [] => some mant
    | e :: r =>
      if e == 'e' || e == 'E' then
        let (negExp, ds) :=
          match r with
          | '+' :: r' => (false, r')
          | '-' :: r' => (true, r')
          | _ => (false, r)
        if ds ≠ [] ∧ ds.all Char.isDigit then
          let ex : Rat := (10 : Rat) ^ digitsToNat ds
          some (if negExp then mant / ex else mant * ex)
        else none
      else none

/-- Python `float(s)` on a string: surrounding whitespace is allowed, then an
optional sign and a float literal. -/
def parseFloat (s : String) : Option Rat :=
  match pyStripL s.data with
  | '+' :: r => parseFloatBody r
  | '-' :: r => (parseFloatBody r).map (fun q => -q)
  | r => parseFloatBody r

/-- Python `float(x)` on a JSON value: numbers are returned, booleans coerce
to `1`/`0`, strings are parsed, everything else raises (`none`). -/
def pyFloat : JVal → Option Rat
  | .num q => some q
  | .bool b => some (if b then 1 else 0)
  | .str s => parseFloat s
  | _ => none

/-! ## `datetime.fromisoformat` -/

/-- A naive `datetime` value. -/
structure PyDateTime where
  year : Nat
  month : Nat
  day : Nat
  hour : Nat
  minute : Nat
  second : Nat
  usec : Nat
  deriving Repr, DecidableEq

/-- Linear key realising `datetime` comparison (lexicographic on the
components, which the bounds make equivalent to this mixed-radix value). -/
def PyDateTime.key (d : PyDateTime) : Nat :=
  (((((d.year * 13 + d.month) * 32 + d.day) * 24 + d.hour) * 60 + d.minute)
      * 60 + d.second) * 1000000 + d.usec

/-- Days in a month of a given year (proleptic Gregorian, as `datetime`). -/
def daysInMonth (y m : Nat) : Nat :=
  if m == 2 then
    if y % 4 == 0 ∧ (y % 100 ≠ 0 ∨ y % 400 == 0) then 29 else 28
  else if m == 4 ∨ m == 6 ∨ m == 9 ∨ m == 11 then 30
  else 31

/-- Parse `HH[:MM[:SS[.ffffff]]]` and validate the ranges. -/
def parseTimePart (l : List Char) : Option (Nat × Nat × Nat × Nat) :=
  match l with
  | [h1, h2] =>
    if [h1, h2].all Char.isDigit then some (digitsToNat [h1, h2], 0, 0, 0)
    else none
  | [h1, h2, ':', m1, m2] =>
    if [h1, h2, m1, m2].all Char.isDigit then
      some (digitsToNat [h1, h2], digitsToNat [m1, m2], 0, 0)
    else none
  | h1 :: h2 :: ':' :: m1 :: m2 :: ':' :: s1 :: s2 :: rest =>
    if [h1, h2, m1, m2, s1, s2].all Char.isDigit then
      match rest with
      | [] => some (digitsToNat [h1, h2], digitsToNat [m1, m2],
                    digitsToNat [s1, s2], 0)
      | '.' :: fs =>
        if fs ≠ [] ∧ fs.length ≤ 6 ∧ fs.all Char.isDigit then
          some (digitsToNat [h1, h2], digitsToNat [m1, m2],
                digitsToNat [s1, s2],
                digitsToNat fs * 10 ^ (6 - fs.length))
        else none
      | _ => none
    else none
  | _ => none

/-- `datetime.fromisoformat`: `YYYY-MM-DD`, optionally followed by `T` or a
space and a time part.  Timezone offsets and the compact digit forms are
outside the model; calendar validity is checked as `datetime` does. -/
def fromisoformat (s : String) : Option PyDateTime :=
  match s.data with
  | y1 :: y2 :: y3 :: y4 :: '-' :: m1 :: m2 :: '-' :: d1 :: d2 :: rest =>
    if [y1, y2, y3, y4, m1, m2, d1, d2].all Char.isDigit then
      let y := digitsToNat [y1, y2, y3, y4]
      let mo := digitsToNat [m1, m2]
      let d := digitsToNat [d1, d2]
      if 1 ≤ y ∧ 1 ≤ mo ∧ mo ≤ 12 ∧ 1 ≤ d ∧ d ≤ daysInMonth y mo then
        match rest with
        | [] => some ⟨y, mo, d, 0, 0, 0, 0⟩
        | sep :: timeRest =>
          if sep == 'T' ∨ sep == ' ' then
            match parseTimePart timeRest with
            | some (h, mi, sec, us) =>
              if h ≤ 23 ∧ mi ≤ 59 ∧ sec ≤ 59 then
                some ⟨y, mo, d, h, mi, sec, us⟩
              else none
            | none => none
          else none
      else none
    else none
  | _ => none

/-- `parse_date` from the script: `fromisoformat` under a `try`, so non-string
arguments and parse failures give `None`. -/
def parse_date : JVal → Option PyDateTime
  | .str s => fromisoformat s
  | _ => none

/-! ## Diagnostics -/

/-- One printed diagnostic line of the row loop (the payload mirrors what the
corresponding `print` interpolates). -/
inductive Diag where
  | missingFields (fields : List String)
  | latOutOfRange (v : Rat)
  | lonOutOfRange (v : Rat)
  | notNumeric (lat lon : Option JVal)
  | orderViolation (arrival departure : JVal)
  | swapped
  | placeholderLink
  | clearedLink
  | suspiciousLink
  deriving Repr

/-- Early (pre-row-loop) failures. -/
inductive InputErr where
  | fileNotFound
  | jsonError
  | notAList
  deriving Repr, DecidableEq

/-! ## The per-record checks of `main` -/

/-- Completeness check: `missing = [f for f in REQUIRED_FIELDS if f not in
item]`, report and fail when non-empty. -/
def checkMissing (item : Record) : List Diag × Bool :=
  let missing := REQUIRED_FIELDS.filter (fun f => !hasField item f)
  if missing.isEmpty then ([], true)
  else ([Diag.missingFields missing], false)

/-- Coordinate check: `float(item.get("lat", 0))` and `float(item.get("lon",
0))` inside one `try`; a coercion failure prints one not-numeric line and
fails the row, successful coercion checks the two ranges independently. -/
def checkCoords (item : Record) : List Diag × Bool :=
  match pyFloat (getFieldD item "lat" (JVal.num 0)) with
  | none => ([Diag.notNumeric (getField? item "lat") (getField? item "lon")], false)
  | some lat =>
    match pyFloat (getFieldD item "lon" (JVal.num 0)) with
    | none => ([Diag.notNumeric (getField? item "lat") (getField? item "lon")], false)
    | some lon =>
      let latPart : List Diag × Bool :=
        if -90 ≤ lat ∧ lat ≤ 90 then ([], true)
        else ([Diag.latOutOfRange lat], false)
      let lonPart : List Diag × Bool :=
        if -180 ≤ lon ∧ lon ≤ 180 then ([], true)
        else ([Diag.lonOutOfRange lon], false)
      (latPart.1 ++ lonPart.1, latPart.2 && lonPart.2)

/-- Date-ordering check.  Both raw values are fetched with default `""`; when
both parse and arrival is after departure, fix mode swaps the two raw values
in the record, non-fix mode fails the row. -/
def checkDates (fix : Bool) (item : Record) : Record × List Diag × Bool :=
  let arrivalRaw := getFieldD item "arrival" (JVal.str "")
  let departureRaw := getFieldD item "departure" (JVal.str "")
  match parse_date arrivalRaw, parse_date departureRaw with
  | some a, some d =>
    if d.key < a.key then
      if fix then
        (setField (setField item "arrival" departureRaw) "departure" arrivalRaw,
         [Diag.orderViolation arrivalRaw departureRaw, Diag.swapped], true)
      else (item, [Diag.orderViolation arrivalRaw departureRaw], false)
    else (item, [], true)
  | _, _ => (item, [], true)

/-- The two link checks.  `link` is read once (`link = item.get("link", "")`)
before either check, so clearing the field in fix mode does not affect the
second test. -/
def checkLink (fix : Bool) (item : Record) : Record × List Diag × Bool :=
  let link := getFieldD item "link" (JVal.str "")
  let step1 : Record × List Diag × Bool :=
    match link with
    | .str s =>
      if containsSub s "User to research" then
        if fix then (setField item "link" (JVal.str ""),
                     [Diag.placeholderLink, Diag.clearedLink], true)
        else (item, [Diag.placeholderLink], false)
      else (item, [], true)
    | _ => (item, [], true)
  let step2 : Record × List Diag × Bool :=
    match link with
    | .str s =>
      if !containsSub s "http" ∧ s.length > 200 then
        if fix then (setField step1.1 "link" (JVal.str ""),
                     [Diag.suspiciousLink], true)
        else (step1.1, [Diag.suspiciousLink], false)
      else (step1.1, [], true)
    | _ => (step1.1, [], true)
  (step2.1, step1.2.1 ++ step2.2.1, step1.2.2 && step2.2.2)

/-- Fix-mode normalization of one field value: string fields become
`remove_emojis(v).strip()`. -/
def normalizeField : JVal → JVal
  | .str s => .str (pyStrip (remove_emojis s))
  | v => v

/-- Fix-mode normalization pass over a record. -/
def normalizeRecord (item : Record) : Record :=
  item.map (fun p => (p.1, normalizeField p.2))

/-- Result of processing one row. -/
structure RowResult where
  row : Record
  diags : List Diag
  ok : Bool
  deriving Repr

/-- One iteration of the row loop of `main`, in source order: completeness,
coordinates, dates (may swap), link checks (may clear), then in fix mode the
normalization pass. -/
def processRow (fix : Bool) (item : Record) : RowResult :=
  let m := checkMissing item
  let c := checkCoords item
  let dt := checkDates fix item
  let lk := checkLink fix dt.1
  let finalRec := if fix then normalizeRecord lk.1 else lk.1
  ⟨finalRec, m.1 ++ c.1 ++ dt.2.1 ++ lk.2.1, m.2 && c.2 && dt.2.2 && lk.2.2⟩

/-! ## `json.dumps(..., ensure_ascii=False, indent=2)` -/

/-- Lower-case hex digit. -/
def hexDigit (n : Nat) : Char :=
  if n < 10 then Char.ofNat ('0'.toNat + n) else Char.ofNat ('a'.toNat + n - 10)

/-- Four-digit lower-case hex rendering for `\uXXXX` escapes. -/
def hex4 (n : Nat) : String :=
  ⟨[hexDigit (n / 4096 % 16), hexDigit (n / 256 % 16),
    hexDigit (n / 16 % 16), hexDigit (n % 16)]⟩

/-- JSON escaping of one character with `ensure_ascii=False`: only quote,
backslash and control characters are escaped, everything else (non-ASCII
included) stays literal. -/
def escChar (c : Char) : String :=
  if c == '"' then "\\\""
  else if c == '\\' then "\\\\"
  else if c == '\n' then "\\n"
  else if c == '\t' then "\\t"
  else if c == '\x0d' then "\\r"
  else if c == '\x08' then "\\b"
  else if c == '\x0c' then "\\f"
  else if c.toNat < 0x20 then "\\u" ++ hex4 c.toNat
  else String.singleton c

/-- A JSON string literal. -/
def escString (s : String) : String :=
  "\"" ++ String.join (s.data.map escChar) ++ "\""

/-- Rendering of a JSON number.  Integral values print as Python ints do;
non-integral values (floats whose shortest-repr formatting is not modelled)
are rendered as an exact fraction. -/
def renderNum (q : Rat) : String :=
  if q.den == 1 then toString q.num
  else toString q.num ++ "/" ++ toString q.den

/-- Indentation of `2 * lvl` spaces. -/
def pad (lvl : Nat) : String :=
  ⟨List.replicate (2 * lvl) ' '⟩

mutual

/-- `json.dumps(v, ensure_ascii=False, indent=2)` at nesting level `lvl`:
2-space indentation, item separator `,` + newline, key separator `: `, empty
containers on one line. -/
def jsonDump (lvl : Nat) : JVal → String
  | .null => "null"
  | .bool b => if b then "true" else "false"
  | .num q => renderNum q
  | .str s => escString s
  | .arr [] => "[]"
  | .arr (x :: xs) =>
    "[\n" ++ String.intercalate ",\n"
        (jsonDumpList (lvl + 1) (x :: xs) |>.map (fun t => pad (lvl + 1) ++ t))
      ++ "\n" ++ pad lvl ++ "]"
  | .obj [] => "\x7b\x7d"
  | .obj (f :: fs) =>
    "\x7b\n" ++ String.intercalate ",\n"
        (jsonDumpFields (lvl + 1) (f :: fs) |>.map (fun t => pad (lvl + 1) ++ t))
      ++ "\n" ++ pad lvl ++ "\x7d"

/-- The rendered elements of an array. -/
def jsonDumpList (lvl : Nat) : List JVal → List String
  | [] => []
  | x :: xs => jsonDump lvl x :: jsonDumpList lvl xs

/-- The rendered `"key": value` items of an object. -/
def jsonDumpFields (lvl : Nat) : List (String × JVal) → List String
  | [] => []
  | (k, v) :: fs => (escString k ++ ": " ++ jsonDump lvl v) :: jsonDumpFields lvl fs

end

/-! ## Output path (`pathlib`) -/

/-- Split a path into directory part (up to and including the last `/`) and
final name. -/
def splitName (path : String) : String × String :=
  let rev := path.data.reverse
  (⟨(rev.dropWhile (fun c => c ≠ '/')).reverse⟩,
   ⟨(rev.takeWhile (fun c => c ≠ '/')).reverse⟩)

/-- `Path.stem`/`Path.suffix` of a name: the suffix starts at the last dot
when that dot is neither the first nor the last character. -/
def splitExt (name : String) : String × String :=
  let cs := name.data
  let n := cs.length
  let afterDot := (cs.reverse.takeWhile (fun c => c ≠ '.')).length
  if afterDot == n then (name, "")
  else
    let i := n - 1 - afterDot
    if 0 < i ∧ i < n - 1 then (⟨cs.take i⟩, ⟨cs.drop i⟩) else (name, "")

/-- `p.with_name(p.stem + ".fixed" + p.suffix)`. -/
def fixedPath (path : String) : String :=
  let dn := splitName path
  let se := splitExt dn.2
  dn.1 ++ se.1 ++ ".fixed" ++ se.2

/-! ## The whole run -/

/-- What loading the input produced: the file is absent, `json.loads` raised
(the exception escapes `main`, so the process still exits non-zero), the top
level is not a list, or a list of records.  (Converting raw bytes to this is
the thin wrapper around the routine; claims about non-dict list elements are
outside the model.) -/
inductive Loaded where
  | missing
  | malformed
  | notList
  | list (records : List Record)

/-- Observable outcome of a run of `main`: exit status, early input error (if
any), per-row diagnostics tagged with 1-based row numbers, the final
(possibly mutated) records, and the written output file as (path, contents)
when one is produced. -/
structure RunResult where
  exit : Nat
  inputErr : Option InputErr
  rowDiags : List (Nat × Diag)
  records : List Record
  output : Option (String × String)

/-- `main(path, fix, inplace)` after loading.  Row numbers start at 1; the
output file is written only when `fix` is set and `cleaned` is non-empty, to
the original path under `inplace` and otherwise to the `.fixed` sibling;
exit status is 0 exactly when every row passed. -/
def mainRun (ld : Loaded) (fix inplace : Bool) (path : String) : RunResult :=
  match ld with
  | .missing => ⟨1, some InputErr.fileNotFound, [], [], none⟩
  | .malformed => ⟨1, some InputErr.jsonError, [], [], none⟩
  | .notList => ⟨1, some InputErr.notAList, [], [], none⟩
  | .list data =>
    let results := data.map (processRow fix)
    let cleaned := results.map (fun r => r.row)
    let ok := results.all (fun r => r.ok)
    let rowDiags :=
      (results.enum.map (fun p => p.2.diags.map (fun d => (p.1 + 1, d)))).flatten
    let output :=
      if fix ∧ !cleaned.isEmpty then
        some (if inplace then path else fixedPath path,
              jsonDump 0 (JVal.arr (cleaned.map JVal.obj)))
      else none
    ⟨if ok then 0 else 1, none, rowDiags, cleaned, output⟩

/-! ## Claim-side predicates and concrete test records -/

/-- The hypothesis class of the first testable property (stated from the
spec's words): every required field present, `lat`/`lon` coercible and in
range, `arrival ≤ departure` whenever both parse, and a `link` string without
the placeholder text that either mentions `"http"` or has length at most
200. -/
def recordCleanB (r : Record) : Bool :=
  REQUIRED_FIELDS.all (fun f => hasField r f)
  && (match pyFloat (getFieldD r "lat" (JVal.num 0)) with
      | some la => decide (-90 ≤ la ∧ la ≤ 90)
      | none => false)
  && (match pyFloat (getFieldD r "lon" (JVal.num 0)) with
      | some lo => decide (-180 ≤ lo ∧ lo ≤ 180)
      | none => false)
  && (match parse_date (getFieldD r "arrival" (JVal.str "")),
            parse_date (getFieldD r "departure" (JVal.str "")) with
      | some a, some d => decide (a.key ≤ d.key)
      | _, _ => true)
  && (match getFieldD r "link" (JVal.str "") with
      | .str s => !containsSub s "User to research"
                  && (containsSub s "http" || decide (s.length ≤ 200))
      | _ => false)

/-- The valid record of the repository's smoke test. -/
def rGoodEx : Record :=
  [("number", .num 1), ("name", .str "A"), ("lat", .num 45), ("lon", .num 12),
   ("arrival", .str "2026-07-01"), ("departure", .str "2026-07-02"),
   ("duration", .str "1 day"), ("distance", .str "10 km"),
   ("type", .str "Marina"), ("link", .str "https://example.com"),
   ("season", .str "summer")]

/-- A record with the dates in the wrong order (the spec's §8 example). -/
def rSwapEx : Record :=
  [("number", .num 1), ("name", .str "B"), ("lat", .num 45), ("lon", .num 12),
   ("arrival", .str "2026-07-05"), ("departure", .str "2026-07-01"),
   ("duration", .str "1 day"), ("distance", .str "10 km"),
   ("type", .str "Marina"), ("link", .str "https://example.com"),
   ("season", .str "summer")]

/-- A record with almost every required field absent. -/
def rMissingEx : Record :=
  [("name", .str "X"), ("extra", .null)]

/-- A record with both coordinates out of range. -/
def rCoordsEx : Record :=
  [("number", .num 2), ("name", .str "C"), ("lat", .num 95), ("lon", .num 200),
   ("arrival", .str "2026-07-01"), ("departure", .str "2026-07-02"),
   ("duration", .str "1 day"), ("distance", .str "10 km"),
   ("type", .str "Marina"), ("link", .str "https://example.com"),
   ("season", .str "summer")]

/-- A record whose `link` is the placeholder text. -/
def rPlaceholderEx : Record :=
  [("number", .num 3), ("name", .str "D"), ("lat", .num 45), ("lon", .num 12),
   ("arrival", .str "2026-07-01"), ("departure", .str "2026-07-02"),
   ("duration", .str "1 day"), ("distance", .str "10 km"),
   ("type", .str "Marina"), ("link", .str "User to research"),
   ("season", .str "summer")]

/-- A fully valid record whose `name` contains a supplementary-plane
character (an emoji), which validation never inspects. -/
def rEmojiEx : Record :=
  [("number", .num 4), ("name", .str "A😀"), ("lat", .num 45), ("lon", .num 12),
   ("arrival", .str "2026-07-01"), ("departure", .str "2026-07-02"),
   ("duration", .str "1 day"), ("distance", .str "10 km"),
   ("type", .str "Marina"), ("link", .str "https://example.com"),
   ("season", .str "summer")]

/-- A valid record whose `arrival` has a leading space: it does not parse, so
no ordering check applies, but the fix-mode trim makes it parseable — and out
of order — for a second run. -/
def rTrickyEx : Record :=
  [("number", .num 5), ("name", .str "E"), ("lat", .num 45), ("lon", .num 12),
   ("arrival", .str " 2026-07-05"), ("departure", .str "2026-07-01"),
   ("duration", .str "1 day"), ("distance", .str "10 km"),
   ("type", .str "Marina"), ("link", .str "https://example.com"),
   ("season", .str "summer")]

/-- A record with `lat` absent and `lon` out of range. -/
def rLatAbsentEx : Record :=
  [("number", .num 6), ("name", .str "F"), ("lon", .num 200),
   ("arrival", .str "2026-07-01"), ("departure", .str "2026-07-02"),
   ("duration", .str "1 day"), ("distance", .str "10 km"),
   ("type", .str "Marina"), ("link", .str "https://example.com"),
   ("season", .str "summer")]

/-- A record with `lat` absent and `lon` present and within range. -/
def rLatAbsentOkEx : Record :=
  [("number", .num 8), ("name", .str "H"), ("lon", .num 12),
   ("arrival", .str "2026-07-01"), ("departure", .str "2026-07-02"),
   ("duration", .str "1 day"), ("distance", .str "10 km"),
   ("type", .str "Marina"), ("link", .str "https://example.com"),
   ("season", .str "summer")]

/-- A record with both coordinates absent and the dates out of order. -/
def rNoCoordsEx : Record :=
  [("number", .num 7), ("name", .str "G"),
   ("arrival", .str "2026-07-05"), ("departure", .str "2026-07-01"),
   ("duration", .str "1 day"), ("distance", .str "10 km"),
   ("type", .str "Marina"), ("link", .str "https://example.com"),
   ("season", .str "summer")]

/-- The records produced by one fix-mode run (path immaterial). -/
def fixOnce (rs : List Record) : List Record :=
  (mainRun (Loaded.list rs) true false "stops.json").records

/-! ## Basic lemmas about the embedding -/

theorem getField?_setField_self (r : Record) (k : String) (v : JVal) :
    getField? (setField r k v) k = some v := by
  induction r with
  | nil => simp [setField, getField?, List.find?]
  | cons p r ih =>
    by_cases h : p.1 == k
    · simp [setField, h, getField?, List.find?]
    · simp only [setField, h, Bool.false_eq_true, not_false_eq_true,
        ite_false, getField?, List.find?, h] at ih ⊢
      exact ih

theorem getField?_setField_other (r : Record) (k k' : String) (v : JVal)
    (hne : k ≠ k') :
    getField? (setField r k v) k' = getField? r k' := by
  have hkk : (k == k') = false := by simpa using hne
  induction r with
  | nil => simp [setField, getField?, List.find?, hkk]
  | cons p r ih =>
    by_cases h : p.1 == k
    · have hp : p.1 = k := by simpa using h
      have hp' : (p.1 == k') = false := by rw [hp]; exact hkk
      simp [setField, h, getField?, List.find?, hkk, hp']
    · simp only [setField, h, Bool.false_eq_true, not_false_eq_true,
        ite_false, getField?, List.find?] at ih ⊢
      by_cases h2 : p.1 == k'
      · simp [h2]
      · simp [h2, ih]

theorem getFieldD_setField_self (r : Record) (k : String) (v d : JVal) :
    getFieldD (setField r k v) k d = v := by
  rw [getFieldD, getField?_setField_self]
  rfl

theorem getFieldD_setField_other (r : Record) (k k' : String) (v d : JVal)
    (hne : k ≠ k') :
    getFieldD (setField r k v) k' d = getFieldD r k' d := by
  rw [getFieldD, getField?_setField_other r k k' v hne]
  rfl

theorem pyStripL_eq_rdrop (l : List Char) :
    pyStripL l = List.rdropWhile pyIsSpace (l.dropWhile pyIsSpace) := rfl

theorem pyStripL_idem (l : List Char) : pyStripL (pyStripL l) = pyStripL l := by
  rw [pyStripL_eq_rdrop, pyStripL_eq_rdrop]
  have h1 : (List.rdropWhile pyIsSpace (l.dropWhile pyIsSpace)).dropWhile pyIsSpace
      = List.rdropWhile pyIsSpace (l.dropWhile pyIsSpace) := by
    rw [List.dropWhile_eq_self_iff]
    intro hl
    have hpref := List.rdropWhile_prefix pyIsSpace (l.dropWhile pyIsSpace)
    have hlen : 0 < (l.dropWhile pyIsSpace).length :=
      lt_of_lt_of_le hl hpref.length_le
    have hget : (List.rdropWhile pyIsSpace (l.dropWhile pyIsSpace)).get ⟨0, hl⟩
        = (l.dropWhile pyIsSpace).get ⟨0, hlen⟩ := by
      simpa using hpref.getElem (n := 0) hl
    rw [hget]
    exact List.dropWhile_get_zero_not pyIsSpace l hlen
  rw [h1, List.rdropWhile_idempotent]

theorem pyStripL_subset (l : List Char) : ∀ c ∈ pyStripL l, c ∈ l := by
  intro c hc
  rw [pyStripL_eq_rdrop] at hc
  exact (List.dropWhile_suffix pyIsSpace).subset
    ((List.rdropWhile_prefix pyIsSpace (l.dropWhile pyIsSpace)).subset hc)

theorem remove_emojis_of_stripped (s : String) :
    remove_emojis (pyStrip (remove_emojis s)) = pyStrip (remove_emojis s) := by
  unfold remove_emojis pyStrip
  refine congrArg String.mk ?_
  refine List.filter_eq_self.mpr ?_
  intro c hc
  have hmem := pyStripL_subset _ c hc
  exact (List.mem_filter.mp hmem).2

theorem pyStrip_of_stripped (s : String) :
    pyStrip (pyStrip s) = pyStrip s := by
  unfold pyStrip
  exact congrArg String.mk (pyStripL_idem s.data)

theorem normalizeField_idem (v : JVal) :
    normalizeField (normalizeField v) = normalizeField v := by
  cases v <;> simp only [normalizeField]
  rename_i s
  rw [remove_emojis_of_stripped]
  exact congrArg JVal.str (congrArg String.mk (pyStripL_idem _))

theorem normalizeRecord_idem (r : Record) :
    normalizeRecord (normalizeRecord r) = normalizeRecord r := by
  unfold normalizeRecord
  rw [List.map_map]
  refine List.map_congr_left ?_
  intro p _
  simp [Function.comp, normalizeField_idem]

theorem checkMissing_of_complete (r : Record)
    (h : ∀ f ∈ REQUIRED_FIELDS, hasField r f = true) :
    checkMissing r = ([], true) := by
  unfold checkMissing
  have hnil : REQUIRED_FIELDS.filter (fun f => !hasField r f) = [] := by
    rw [List.filter_eq_nil_iff]
    intro f hf
    simp [h f hf]
  simp [hnil]

theorem checkDates_false_fst (r : Record) : (checkDates false r).1 = r := by
  unfold checkDates
  cases hpa : parse_date (getFieldD r "arrival" (JVal.str "")) <;>
    cases hpd : parse_date (getFieldD r "departure" (JVal.str "")) <;>
      simp [hpa, hpd]
  all_goals split <;> rfl

theorem checkLink_false_fst (r : Record) : (checkLink false r).1 = r := by
  unfold checkLink
  cases heq : getFieldD r "link" (JVal.str "") <;> simp [heq]
  all_goals split_ifs <;> simp

theorem processRow_row_def (fix : Bool) (r : Record) :
    (processRow fix r).row =
      (if fix then normalizeRecord (checkLink fix (checkDates fix r).1).1
       else (checkLink fix (checkDates fix r).1).1) := rfl

theorem processRow_ok_def (fix : Bool) (r : Record) :
    (processRow fix r).ok =
      ((checkMissing r).2 && (checkCoords r).2 && (checkDates fix r).2.2 &&
        (checkLink fix (checkDates fix r).1).2.2) := rfl

theorem processRow_false_row (r : Record) : (processRow false r).row = r := by
  rw [processRow_row_def]
  simp [checkDates_false_fst, checkLink_false_fst]

theorem mainRun_list_exit (rs : List Record) (fix ip : Bool) (p : String) :
    (mainRun (Loaded.list rs) fix ip p).exit =
      if (rs.map (processRow fix)).all (fun x => x.ok) then 0 else 1 := rfl

theorem mainRun_list_records (rs : List Record) (fix ip : Bool) (p : String) :
    (mainRun (Loaded.list rs) fix ip p).records =
      (rs.map (processRow fix)).map (fun x => x.row) := rfl

theorem mainRun_list_output (rs : List Record) (fix ip : Bool) (p : String) :
    (mainRun (Loaded.list rs) fix ip p).output =
      if fix ∧ !((rs.map (processRow fix)).map (fun x => x.row)).isEmpty then
        some (if ip then p else fixedPath p,
              jsonDump 0 (JVal.arr
                (((rs.map (processRow fix)).map (fun x => x.row)).map JVal.obj)))
      else none := rfl

theorem mainRun_exit_zero_iff (rs : List Record) (fix ip : Bool) (p : String) :
    (mainRun (Loaded.list rs) fix ip p).exit = 0 ↔
      ∀ r ∈ rs, (processRow fix r).ok = true := by
  rw [mainRun_list_exit]
  by_cases h : (rs.map (processRow fix)).all (fun x => x.ok) = true
  · rw [if_pos h]
    rw [List.all_eq_true] at h
    exact ⟨fun _ r hr => h _ (List.mem_map_of_mem _ hr), fun _ => rfl⟩
  · rw [if_neg h]
    constructor
    · intro h10
      exact absurd h10 one_ne_zero
    · intro hall
      exfalso
      refine h (List.all_eq_true.mpr ?_)
      intro x hx
      rcases List.mem_map.mp hx with ⟨r, hr, rfl⟩
      exact hall r hr

theorem checkDates_of_pass (r : Record)
    (h : (checkDates false r).2.2 = true) :
    ∀ fx, checkDates fx r = (r, [], true) := by
  intro fx
  unfold checkDates at h ⊢
  cases hpa : parse_date (getFieldD r "arrival" (JVal.str "")) <;>
    cases hpd : parse_date (getFieldD r "departure" (JVal.str "")) <;>
      simp [hpa, hpd] at h ⊢
  split at h
  · simp at h
  · rename_i hcond
    intro hlt
    exact absurd hlt hcond

theorem checkLink_of_pass (r : Record)
    (h : (checkLink false r).2.2 = true) :
    ∀ fx, checkLink fx r = (r, [], true) := by
  intro fx
  unfold checkLink at h ⊢
  cases heq : getFieldD r "link" (JVal.str "") <;> simp [heq] at h ⊢
  split_ifs at h <;> try simp_all
  rename_i c2
  split_ifs with hc hd
  all_goals try exact absurd hc.2 (not_lt.mpr (c2 hc.1))
  simp

theorem processRow_true_of_pass (r : Record)
    (h : (processRow false r).ok = true) :
    (processRow true r).row = normalizeRecord r ∧ (processRow true r).ok = true := by
  rw [processRow_ok_def] at h
  simp only [Bool.and_eq_true] at h
  obtain ⟨⟨⟨hm, hc⟩, hd⟩, hl⟩ := h
  rw [checkDates_false_fst] at hl
  have hdt := checkDates_of_pass r hd
  have hlk := checkLink_of_pass r hl
  constructor
  · rw [processRow_row_def]
    simp [hdt true, hlk true]
  · rw [processRow_ok_def]
    simp [hm, hc, hdt true, hlk true]

theorem processRow_true_row_normalized (r : Record) :
    normalizeRecord (processRow true r).row = (processRow true r).row := by
  rw [processRow_row_def]
  simp [normalizeRecord_idem]

theorem processRow_false_ok_of_clean (r : Record) (h : recordCleanB r = true) :
    (processRow false r).ok = true := by
  unfold recordCleanB at h
  simp only [Bool.and_eq_true] at h
  obtain ⟨⟨⟨⟨hreq, hlat⟩, hlon⟩, hdates⟩, hlink⟩ := h
  have hcc : checkCoords r = ([], true) := by
    cases hla : pyFloat (getFieldD r "lat" (JVal.num 0)) with
    | none => rw [hla] at hlat; simp at hlat
    | some la =>
      cases hlo : pyFloat (getFieldD r "lon" (JVal.num 0)) with
      | none => rw [hlo] at hlon; simp at hlon
      | some lo =>
        rw [hla] at hlat
        rw [hlo] at hlon
        simp at hlat hlon
        unfold checkCoords
        simp [hla, hlo, hlat, hlon]
  have hdt : (checkDates false r).2.2 = true := by
    unfold checkDates
    cases hpa : parse_date (getFieldD r "arrival" (JVal.str "")) with
    | none => simp [hpa]
    | some a =>
      cases hpd : parse_date (getFieldD r "departure" (JVal.str "")) with
      | none => simp [hpa, hpd]
      | some d =>
        rw [hpa, hpd] at hdates
        simp at hdates
        simp [hpa, hpd, not_lt.mpr hdates]
  have hlk : (checkLink false r).2.2 = true := by
    cases heq : getFieldD r "link" (JVal.str "") with
    | str s =>
      rw [heq] at hlink
      simp at hlink
      obtain ⟨hc1, hc2⟩ := hlink
      unfold checkLink
      rcases hc2 with hhttp | hlen
      · simp [heq, hc1, hhttp]
      · simp [heq, hc1, not_lt.mpr hlen]
    | num q => rw [heq] at hlink; simp at hlink
    | bool b => rw [heq] at hlink; simp at hlink
    | null => rw [heq] at hlink; simp at hlink
    | arr xs => rw [heq] at hlink; simp at hlink
    | obj fs => rw [heq] at hlink; simp at hlink
  rw [processRow_ok_def, checkDates_false_fst,
    checkMissing_of_complete r (List.all_eq_true.mp hreq)]
  simp [hcc, hdt, hlk]

/-- **C1**: a record with all required fields, coercible in-range coordinates,
`arrival ≤ departure` whenever both parse, and a link string free of the
placeholder that mentions "http" or is at most 200 characters, passes
non-fix validation; a dataset of such records makes the run exit 0. -/
theorem claim1_clean_records_pass :
    (∀ r : Record, recordCleanB r = true → (processRow false r).ok = true) ∧
    (∀ (rs : List Record) (ip : Bool) (p : String),
       (∀ r ∈ rs, recordCleanB r = true) →
       (mainRun (Loaded.list rs) false ip p).exit = 0) := by
  refine ⟨processRow_false_ok_of_clean, ?_⟩
  intro rs ip p hall
  rw [mainRun_exit_zero_iff]
  intro r hr
  exact processRow_false_ok_of_clean r (hall r hr)

/-- Witness for C1 at the smoke test's valid record. -/
theorem claim1_witness :
    recordCleanB rGoodEx = true ∧ (processRow false rGoodEx).ok = true ∧
    (mainRun (Loaded.list [rGoodEx]) false false "stops.json").exit = 0 := by
  refine ⟨by decide, claim1_clean_records_pass.1 rGoodEx (by decide),
    claim1_clean_records_pass.2 [rGoodEx] false "stops.json" ?_⟩
  intro r hr
  rw [List.mem_singleton] at hr
  subst hr
  decide

/-- **C2**: when both dates parse and arrival is after departure, non-fix mode
emits the ordering diagnostic and fails the row, while fix mode swaps the two
raw values (after which arrival parses to the earlier instant), emits a swap
diagnostic, and does not fail the row by this check; when either date fails to
parse, this check emits nothing and fails nothing. -/
theorem claim2_date_ordering :
    (∀ (r : Record) (a d : PyDateTime),
       parse_date (getFieldD r "arrival" (JVal.str "")) = some a →
       parse_date (getFieldD r "departure" (JVal.str "")) = some d →
       d.key < a.key →
       (checkDates false r =
          (r, [Diag.orderViolation (getFieldD r "arrival" (JVal.str ""))
                 (getFieldD r "departure" (JVal.str ""))], false) ∧
        (processRow false r).ok = false ∧
        checkDates true r =
          (setField (setField r "arrival" (getFieldD r "departure" (JVal.str "")))
             "departure" (getFieldD r "arrival" (JVal.str "")),
           [Diag.orderViolation (getFieldD r "arrival" (JVal.str ""))
              (getFieldD r "departure" (JVal.str "")), Diag.swapped], true) ∧
        parse_date (getFieldD (checkDates true r).1 "arrival" (JVal.str "")) = some d ∧
        parse_date (getFieldD (checkDates true r).1 "departure" (JVal.str "")) = some a ∧
        d.key ≤ a.key)) ∧
    (∀ (r : Record) (fx : Bool),
       (parse_date (getFieldD r "arrival" (JVal.str "")) = none ∨
        parse_date (getFieldD r "departure" (JVal.str "")) = none) →
       checkDates fx r = (r, [], true)) := by
  constructor
  · intro r a d ha hd hlt
    have hfalse : checkDates false r =
        (r, [Diag.orderViolation (getFieldD r "arrival" (JVal.str ""))
               (getFieldD r "departure" (JVal.str ""))], false) := by
      unfold checkDates
      simp [ha, hd, hlt]
    have htrue : checkDates true r =
        (setField (setField r "arrival" (getFieldD r "departure" (JVal.str "")))
           "departure" (getFieldD r "arrival" (JVal.str "")),
         [Diag.orderViolation (getFieldD r "arrival" (JVal.str ""))
            (getFieldD r "departure" (JVal.str "")), Diag.swapped], true) := by
      unfold checkDates
      simp [ha, hd, hlt]
    refine ⟨hfalse, ?_, htrue, ?_, ?_, le_of_lt hlt⟩
    · simp [processRow_ok_def, hfalse]
    · rw [htrue]
      have hne : "departure" ≠ "arrival" := by decide
      rw [show (setField (setField r "arrival" (getFieldD r "departure" (JVal.str "")))
           "departure" (getFieldD r "arrival" (JVal.str "")),
         [Diag.orderViolation (getFieldD r "arrival" (JVal.str ""))
            (getFieldD r "departure" (JVal.str "")), Diag.swapped],
           (true : Bool)).1 =
         setField (setField r "arrival" (getFieldD r "departure" (JVal.str "")))
           "departure" (getFieldD r "arrival" (JVal.str "")) from rfl]
      rw [getFieldD_setField_other _ _ _ _ _ hne, getFieldD_setField_self]
      exact hd
    · rw [htrue]
      rw [show (setField (setField r "arrival" (getFieldD r "departure" (JVal.str "")))
           "departure" (getFieldD r "arrival" (JVal.str "")),
         [Diag.orderViolation (getFieldD r "arrival" (JVal.str ""))
            (getFieldD r "departure" (JVal.str "")), Diag.swapped],
           (true : Bool)).1 =
         setField (setField r "arrival" (getFieldD r "departure" (JVal.str "")))
           "departure" (getFieldD r "arrival" (JVal.str "")) from rfl]
      rw [getFieldD_setField_self]
      exact ha
  · intro r fx h
    unfold checkDates
    rcases h with h | h
    · simp [h]
    · cases hpa : parse_date (getFieldD r "arrival" (JVal.str "")) <;> simp [hpa, h]

/-- Witness for C2 at the spec's swapped-dates example record. -/
theorem claim2_witness :
    (processRow false rSwapEx).ok = false ∧ (checkDates true rSwapEx).2.2 = true :=
  ⟨(claim2_date_ordering.1 rSwapEx ⟨2026, 7, 5, 0, 0, 0, 0⟩ ⟨2026, 7, 1, 0, 0, 0, 0⟩
      (by decide) (by decide) (by decide)).2.1,
   by rw [(claim2_date_ordering.1 rSwapEx ⟨2026, 7, 5, 0, 0, 0, 0⟩
      ⟨2026, 7, 1, 0, 0, 0, 0⟩ (by decide) (by decide) (by decide)).2.2.1]⟩

/-- **C3**: a record lacking at least one required field gets a diagnostic
naming exactly the absent required fields, the row fails, and any run
containing the record exits 1. -/
theorem claim3_missing_fields :
    ∀ (r : Record) (fix : Bool),
      REQUIRED_FIELDS.any (fun f => !hasField r f) = true →
      (checkMissing r =
         ([Diag.missingFields (REQUIRED_FIELDS.filter (fun f => !hasField r f))],
          false) ∧
       (∀ f, f ∈ REQUIRED_FIELDS.filter (fun f => !hasField r f) ↔
          f ∈ REQUIRED_FIELDS ∧ hasField r f = false) ∧
       (processRow fix r).ok = false ∧
       (∀ (rs : List Record) (ip : Bool) (p : String), r ∈ rs →
          (mainRun (Loaded.list rs) fix ip p).exit = 1)) := by
  intro r fix hany
  have hne : REQUIRED_FIELDS.filter (fun f => !hasField r f) ≠ [] := by
    rcases List.any_eq_true.mp hany with ⟨f, hf, hnf⟩
    intro hnil
    have := List.filter_eq_nil_iff.mp hnil f hf
    simp [hnf] at this
  have hie : ¬((REQUIRED_FIELDS.filter (fun f => !hasField r f)).isEmpty = true) := by
    rw [List.isEmpty_iff]
    exact hne
  have hcm : checkMissing r =
      ([Diag.missingFields (REQUIRED_FIELDS.filter (fun f => !hasField r f))],
       false) := by
    unfold checkMissing
    rw [if_neg hie]
  have hok : (processRow fix r).ok = false := by
    simp [processRow_ok_def, hcm]
  refine ⟨hcm, ?_, hok, ?_⟩
  · intro f
    rw [List.mem_filter, Bool.not_eq_true']
  · intro rs ip p hmem
    have hnall : ¬((rs.map (processRow fix)).all (fun x => x.ok) = true) := by
      intro hall
      have := List.all_eq_true.mp hall _ (List.mem_map_of_mem _ hmem)
      rw [hok] at this
      exact Bool.false_ne_true this
    rw [mainRun_list_exit, if_neg hnall]

/-- Witness for C3 at a record with ten of the eleven fields absent. -/
theorem claim3_witness :
    REQUIRED_FIELDS.any (fun f => !hasField rMissingEx f) = true ∧
    (processRow false rMissingEx).ok = false ∧
    (mainRun (Loaded.list [rMissingEx]) false false "stops.json").exit = 1 := by
  have h := claim3_missing_fields rMissingEx false (by decide)
  exact ⟨by decide, h.2.2.1,
    h.2.2.2 [rMissingEx] false "stops.json" (List.mem_singleton.mpr rfl)⟩

/-- **C4**: when both coordinates coerce, latitude outside `[-90, 90]` yields
an out-of-range diagnostic and fails the row, longitude outside `[-180, 180]`
likewise, the two bound checks are independent (violating both yields both
diagnostics), and this holds whatever the other fields are. -/
theorem claim4_coordinate_ranges :
    ∀ (r : Record) (la lo : Rat) (fix : Bool),
      pyFloat (getFieldD r "lat" (JVal.num 0)) = some la →
      pyFloat (getFieldD r "lon" (JVal.num 0)) = some lo →
      (checkCoords r =
         ((if -90 ≤ la ∧ la ≤ 90 then [] else [Diag.latOutOfRange la]) ++
          (if -180 ≤ lo ∧ lo ≤ 180 then [] else [Diag.lonOutOfRange lo]),
          decide (-90 ≤ la ∧ la ≤ 90) && decide (-180 ≤ lo ∧ lo ≤ 180)) ∧
       (¬(-90 ≤ la ∧ la ≤ 90) →
          Diag.latOutOfRange la ∈ (checkCoords r).1 ∧
          (processRow fix r).ok = false) ∧
       (¬(-180 ≤ lo ∧ lo ≤ 180) →
          Diag.lonOutOfRange lo ∈ (checkCoords r).1 ∧
          (processRow fix r).ok = false) ∧
       (¬(-90 ≤ la ∧ la ≤ 90) → ¬(-180 ≤ lo ∧ lo ≤ 180) →
          (checkCoords r).1 = [Diag.latOutOfRange la, Diag.lonOutOfRange lo])) := by
  intro r la lo fix hla hlo
  have hcc : checkCoords r =
      ((if -90 ≤ la ∧ la ≤ 90 then [] else [Diag.latOutOfRange la]) ++
       (if -180 ≤ lo ∧ lo ≤ 180 then [] else [Diag.lonOutOfRange lo]),
       decide (-90 ≤ la ∧ la ≤ 90) && decide (-180 ≤ lo ∧ lo ≤ 180)) := by
    unfold checkCoords
    by_cases h1 : (-90 ≤ la ∧ la ≤ 90) <;> by_cases h2 : (-180 ≤ lo ∧ lo ≤ 180) <;>
      simp [hla, hlo, h1, h2]
  have hokfalse : ∀ _ : (checkCoords r).2 = false, (processRow fix r).ok = false := by
    intro hc
    rw [processRow_ok_def, hc]
    simp
  refine ⟨hcc, ?_, ?_, ?_⟩
  · intro h1
    refine ⟨by rw [hcc]; simp [h1], hokfalse ?_⟩
    rw [hcc]
    simp [h1]
  · intro h2
    refine ⟨by rw [hcc]; simp [h2], hokfalse ?_⟩
    rw [hcc]
    simp [h2]
  · intro h1 h2
    rw [hcc]
    simp [h1, h2]

/-- Witness for C4 at a record with latitude 95 and longitude 200. -/
theorem claim4_witness :
    (checkCoords rCoordsEx).1 =
      [Diag.latOutOfRange 95, Diag.lonOutOfRange 200] ∧
    (processRow false rCoordsEx).ok = false := by
  have h := claim4_coordinate_ranges rCoordsEx 95 200 false (by decide) (by decide)
  exact ⟨h.2.2.2 (by decide) (by decide), (h.2.1 (by decide)).2⟩

/-- **C5**: a link string containing the placeholder text, or one without
"http" longer than 200 characters, draws a diagnostic and fails the row in
non-fix mode; in fix mode the link is cleared to the empty string and the row
is not failed by these checks. -/
theorem claim5_link_checks :
    ∀ (r : Record) (s : String),
      getFieldD r "link" (JVal.str "") = JVal.str s →
      (containsSub s "User to research" = true ∨
        (containsSub s "http" = false ∧ 200 < s.length)) →
      ((checkLink false r).2.1 ≠ [] ∧
       (checkLink false r).2.2 = false ∧
       (processRow false r).ok = false) ∧
      (getFieldD (checkLink true r).1 "link" (JVal.str "") = JVal.str "" ∧
       (checkLink true r).2.2 = true) := by
  intro r s heq hbad
  have hfull : ((checkLink false r).2.1 ≠ [] ∧ (checkLink false r).2.2 = false) ∧
      (getFieldD (checkLink true r).1 "link" (JVal.str "") = JVal.str "" ∧
       (checkLink true r).2.2 = true) := by
    unfold checkLink
    by_cases c1 : containsSub s "User to research" = true <;>
      by_cases c2 : (containsSub s "http" = false ∧ 200 < s.length)
    · simp [heq, c1, c2, getFieldD_setField_self]
    · simp [heq, c1, c2, getFieldD_setField_self]
    · simp [heq, c1, c2, getFieldD_setField_self]
    · rcases hbad with hb | hb
      · exact absurd hb c1
      · exact absurd hb c2
  have hok : (processRow false r).ok = false := by
    rw [processRow_ok_def, checkDates_false_fst, hfull.1.2]
    simp
  exact ⟨⟨hfull.1.1, hfull.1.2, hok⟩, hfull.2⟩

/-- Witness for C5 at a record whose link is exactly the placeholder text. -/
theorem claim5_witness :
    (processRow false rPlaceholderEx).ok = false ∧
    getFieldD (checkLink true rPlaceholderEx).1 "link" (JVal.str "") =
      JVal.str "" := by
  have h := claim5_link_checks rPlaceholderEx "User to research" rfl
    (Or.inl (by decide))
  exact ⟨h.1.2.2, h.2.1⟩

/-- **C6**: a missing input file, malformed JSON (whose exception escapes
`main`, still ending the process with a non-zero status), or a top level that
is not a list each end the run with status 1 before any row is processed: no
row diagnostics, no records, no output file. -/
theorem claim6_input_errors :
    ∀ (fix ip : Bool) (p : String),
      mainRun Loaded.missing fix ip p =
        ⟨1, some InputErr.fileNotFound, [], [], none⟩ ∧
      mainRun Loaded.malformed fix ip p =
        ⟨1, some InputErr.jsonError, [], [], none⟩ ∧
      mainRun Loaded.notList fix ip p =
        ⟨1, some InputErr.notAList, [], [], none⟩ :=
  fun _ _ _ => ⟨rfl, rfl, rfl⟩

/-- **C9**: with fix mode on and a non-empty dataset, the mutated records are
serialized (2-space-indent, non-ASCII-preserving `jsonDump`) to the original
path under `inplace` and otherwise to the `.fixed` sibling path; an empty
dataset writes nothing. -/
theorem claim9_fix_output :
    ∀ (rs : List Record) (ip : Bool) (p : String),
      (rs ≠ [] →
        (mainRun (Loaded.list rs) true ip p).output =
          some (if ip then p else fixedPath p,
                jsonDump 0 (JVal.arr
                  ((mainRun (Loaded.list rs) true ip p).records.map JVal.obj)))) ∧
      (rs = [] → (mainRun (Loaded.list rs) true ip p).output = none) := by
  intro rs ip p
  constructor
  · intro hne
    cases rs with
    | nil => exact absurd rfl hne
    | cons hd tl =>
      rw [mainRun_list_output, mainRun_list_records]
      simp
  · intro hnil
    subst hnil
    rw [mainRun_list_output]
    simp

/-- Witness for C9 at a one-record dataset. -/
theorem claim9_witness :
    (mainRun (Loaded.list [rGoodEx]) true false "data.json").output =
      some (if false then "data.json" else fixedPath "data.json",
            jsonDump 0 (JVal.arr
              ((mainRun (Loaded.list [rGoodEx]) true false "data.json").records.map
                JVal.obj))) :=
  (claim9_fix_output [rGoodEx] false "data.json").1 (by simp)

/-- **C10**: a non-fix run never mutates any record and never writes an
output file. -/
theorem claim10_nonfix_pure :
    ∀ (rs : List Record) (ip : Bool) (p : String),
      (mainRun (Loaded.list rs) false ip p).records = rs ∧
      (mainRun (Loaded.list rs) false ip p).output = none := by
  intro rs ip p
  constructor
  · rw [mainRun_list_records, List.map_map]
    have h : ∀ r ∈ rs, ((fun (x : RowResult) => x.row) ∘ processRow false) r = id r :=
      fun r _ => processRow_false_row r
    rw [List.map_congr_left h, List.map_id]
  · rw [mainRun_list_output]
    simp

/-- **C7, counterexample**: (a) a fully valid record whose `name` holds an
emoji: the fix run changes the field beyond whitespace trimming (trimming
leaves `"A😀"` unchanged, the run produces `"A"`); (b) idempotence fails: a
record with `arrival = " 2026-07-05"` is left unswapped by the first fix run
(the date does not parse), but the trim makes it parseable, so a second fix
run swaps the dates and changes field values again. -/
theorem claim7_counterexample :
    ((mainRun (Loaded.list [rEmojiEx]) false false "stops.json").exit = 0 ∧
     getField? ((fixOnce [rEmojiEx]).headD []) "name" = some (JVal.str "A") ∧
     pyStrip "A😀" = "A😀" ∧
     ("A" : String) ≠ "A😀") ∧
    (getField? ((fixOnce [rTrickyEx]).headD []) "arrival" =
       some (JVal.str "2026-07-05") ∧
     getField? ((fixOnce (fixOnce [rTrickyEx])).headD []) "arrival" =
       some (JVal.str "2026-07-01") ∧
     ("2026-07-05" : String) ≠ "2026-07-01") :=
  ⟨⟨by decide, rfl, rfl, by decide⟩, rfl, rfl, by decide⟩

/-- **C7, amended**: a fix run on an already-valid dataset returns success
and replaces every string field by its normalized value (whitespace-trimmed
and with supplementary-plane characters removed) while leaving everything
else byte-for-byte intact; and a second fix run changes nothing provided the
first run's output is itself valid (without that proviso a second run can
swap dates that the trim made parseable). -/
theorem claim7_amended_roundtrip :
    (∀ (rs : List Record) (ip : Bool) (p : String),
       (mainRun (Loaded.list rs) false ip p).exit = 0 →
       (mainRun (Loaded.list rs) true ip p).records = rs.map normalizeRecord ∧
       (mainRun (Loaded.list rs) true ip p).exit = 0) ∧
    (∀ (rs : List Record) (ip : Bool) (p : String),
       (mainRun (Loaded.list
           ((mainRun (Loaded.list rs) true ip p).records)) false ip p).exit = 0 →
       (mainRun (Loaded.list
           ((mainRun (Loaded.list rs) true ip p).records)) true ip p).records =
         (mainRun (Loaded.list rs) true ip p).records) := by
  have hpart1 : ∀ (rs : List Record) (ip : Bool) (p : String),
      (mainRun (Loaded.list rs) false ip p).exit = 0 →
      (mainRun (Loaded.list rs) true ip p).records = rs.map normalizeRecord ∧
      (mainRun (Loaded.list rs) true ip p).exit = 0 := by
    intro rs ip p h
    rw [mainRun_exit_zero_iff] at h
    constructor
    · rw [mainRun_list_records, List.map_map]
      refine List.map_congr_left ?_
      intro r hr
      exact (processRow_true_of_pass r (h r hr)).1
    · rw [mainRun_exit_zero_iff]
      intro r hr
      exact (processRow_true_of_pass r (h r hr)).2
  refine ⟨hpart1, ?_⟩
  intro rs ip p h
  rw [(hpart1 _ ip p h).1]
  simp only [mainRun_list_records, List.map_map]
  exact List.map_congr_left (fun r _ => processRow_true_row_normalized r)

/-- Witness for the amended C7 at a one-record valid dataset. -/
theorem claim7_witness :
    (mainRun (Loaded.list [rGoodEx]) false false "stops.json").exit = 0 ∧
    (mainRun (Loaded.list [rGoodEx]) true false "stops.json").records =
      [rGoodEx].map normalizeRecord ∧
    (mainRun (Loaded.list [rGoodEx]) true false "stops.json").exit = 0 :=
  ⟨by decide, (claim7_amended_roundtrip.1 [rGoodEx] false "stops.json" (by decide)).1,
   (claim7_amended_roundtrip.1 [rGoodEx] false "stops.json" (by decide)).2⟩

/-- **C8, counterexample**: (a) a record with `lat` absent but `lon = 200`
does receive an out-of-range diagnostic and is failed by the coordinate
check; (b) a record with both coordinates absent and disordered dates is
failed by the date check as well, not only by completeness. -/
theorem claim8_counterexample :
    (hasField rLatAbsentEx "lat" = false ∧
     checkCoords rLatAbsentEx = ([Diag.lonOutOfRange 200], false) ∧
     (processRow false rLatAbsentEx).ok = false) ∧
    (hasField rNoCoordsEx "lat" = false ∧ hasField rNoCoordsEx "lon" = false ∧
     checkCoords rNoCoordsEx = ([], true) ∧
     (checkDates false rNoCoordsEx).2 =
       ([Diag.orderViolation (JVal.str "2026-07-05") (JVal.str "2026-07-01")],
        false)) :=
  ⟨⟨rfl, rfl, rfl⟩, rfl, rfl, rfl, rfl⟩

theorem getField?_eq_none_of_not_has (r : Record) (k : String)
    (h : hasField r k = false) : getField? r k = none := by
  have hf : r.find? (fun p => p.1 == k) = none := by
    rw [List.find?_eq_none]
    intro x hx
    unfold hasField at h
    rw [List.any_eq_false] at h
    exact h x hx
  unfold getField?
  rw [hf]
  rfl

/-- **C8, amended**: an absent `lat` (or `lon`) is replaced by the default 0
before coercion, which coerces and lies within range; whenever the other
coordinate also coerces within range (in particular when both are absent) the
coordinate check emits no not-numeric and no out-of-range diagnostic and does
not fail the row; the absence, of `lat` or of `lon`, is caught by the
completeness check, which fails the row (other checks may fail it too). -/
theorem claim8_amended_default_zero :
    ∀ (r : Record) (fix : Bool),
      (hasField r "lat" = false →
        pyFloat (getFieldD r "lat" (JVal.num 0)) = some 0 ∧
        ((-90 : Rat) ≤ 0 ∧ (0 : Rat) ≤ 90)) ∧
      (hasField r "lon" = false →
        pyFloat (getFieldD r "lon" (JVal.num 0)) = some 0 ∧
        ((-180 : Rat) ≤ 0 ∧ (0 : Rat) ≤ 180)) ∧
      (hasField r "lat" = false →
        ∀ lo : Rat, pyFloat (getFieldD r "lon" (JVal.num 0)) = some lo →
          -180 ≤ lo → lo ≤ 180 → checkCoords r = ([], true)) ∧
      (hasField r "lon" = false →
        ∀ la : Rat, pyFloat (getFieldD r "lat" (JVal.num 0)) = some la →
          -90 ≤ la → la ≤ 90 → checkCoords r = ([], true)) ∧
      ((hasField r "lat" = false ∨ hasField r "lon" = false) →
        (hasField r "lat" = false →
          "lat" ∈ REQUIRED_FIELDS.filter (fun f => !hasField r f)) ∧
        (hasField r "lon" = false →
          "lon" ∈ REQUIRED_FIELDS.filter (fun f => !hasField r f)) ∧
        (checkMissing r).2 = false ∧
        (processRow fix r).ok = false) := by
  intro r fix
  have hzero : ∀ k, hasField r k = false → getFieldD r k (JVal.num 0) = JVal.num 0 := by
    intro k hk
    rw [getFieldD, getField?_eq_none_of_not_has r k hk]
    rfl
  have hcoords : ∀ la lo : Rat,
      pyFloat (getFieldD r "lat" (JVal.num 0)) = some la →
      pyFloat (getFieldD r "lon" (JVal.num 0)) = some lo →
      -90 ≤ la → la ≤ 90 → -180 ≤ lo → lo ≤ 180 →
      checkCoords r = ([], true) := by
    intro la lo hla hlo h1 h2 h3 h4
    unfold checkCoords
    simp [hla, hlo, h1, h2, h3, h4]
  have hmiss : ∀ k, k ∈ REQUIRED_FIELDS → hasField r k = false →
      k ∈ REQUIRED_FIELDS.filter (fun f => !hasField r f) := by
    intro k hk hnk
    rw [List.mem_filter]
    exact ⟨hk, by simp [hnk]⟩
  refine ⟨?_, ?_, ?_, ?_, ?_⟩
  · intro hlat
    rw [hzero "lat" hlat]
    exact ⟨rfl, by norm_num, by norm_num⟩
  · intro hlon
    rw [hzero "lon" hlon]
    exact ⟨rfl, by norm_num, by norm_num⟩
  · intro hlat lo hlo h3 h4
    refine hcoords 0 lo ?_ hlo (by norm_num) (by norm_num) h3 h4
    rw [hzero "lat" hlat]
    rfl
  · intro hlon la hla h1 h2
    refine hcoords la 0 hla ?_ h1 h2 (by norm_num) (by norm_num)
    rw [hzero "lon" hlon]
    rfl
  · intro habs
    have hne : REQUIRED_FIELDS.filter (fun f => !hasField r f) ≠ [] := by
      rcases habs with h | h
      · intro hnil
        have := hmiss "lat" (by decide) h
        rw [hnil] at this
        exact absurd this (List.not_mem_nil _)
      · intro hnil
        have := hmiss "lon" (by decide) h
        rw [hnil] at this
        exact absurd this (List.not_mem_nil _)
    have hcm : (checkMissing r).2 = false := by
      unfold checkMissing
      rw [if_neg (by rw [List.isEmpty_iff]; exact hne)]
    refine ⟨fun h => hmiss "lat" (by decide) h,
      fun h => hmiss "lon" (by decide) h, hcm, ?_⟩
    rw [processRow_ok_def, hcm]
    simp

/-- Witness for the amended C8: `lat` absent with `lon = 12` present and in
range, and both coordinates absent. -/
theorem claim8_witness :
    checkCoords rLatAbsentOkEx = ([], true) ∧
    checkCoords rNoCoordsEx = ([], true) ∧
    (processRow false rLatAbsentOkEx).ok = false ∧
    (processRow false rNoCoordsEx).ok = false := by
  have h1 := claim8_amended_default_zero rLatAbsentOkEx false
  have h2 := claim8_amended_default_zero rNoCoordsEx false
  exact ⟨h1.2.2.1 rfl 12 rfl (by norm_num) (by norm_num),
         h2.2.2.1 rfl 0 rfl (by norm_num) (by norm_num),
         (h1.2.2.2.2 (Or.inl rfl)).2.2.2,
         (h2.2.2.2.2 (Or.inl rfl)).2.2.2⟩
